import Mathlib

/-!
Verification of the DfuSe packer (`dfuse-pack.py`): a shallow embedding of
its CRC engine, container codec (`build` / `parse`), pre-flight suffix check
(`checkbin`), binary-descriptor ingestion, and S-record ingestion, together
with theorems settling the specification claims.

Byte strings are modelled as `List Nat` (each entry a byte value); Python's
arbitrary-precision integers are `Nat`/`Int` with explicit masking.  Python
operations that raise (`struct.unpack` on short input, `int()` on a bad
literal, `binascii.unhexlify` on bad hex, `sys.exit`, unbound locals) are
modelled with `Option`/`Except`.
-/

/-! ## CRC engine

`compute_crc` in the source is `0xFFFFFFFF & -zlib.crc32(data) - 1`; by
Python precedence this is `0xFFFFFFFF & ((-crc32(data)) - 1)`, a bitwise
AND of a mask with a negative two's-complement integer.  `zlib.crc32` is an
external library; `crc32` below models it bit-for-bit: the standard
reflected CRC-32 (polynomial 0xEDB88320, init 0xFFFFFFFF, final XOR
0xFFFFFFFF), validated against zlib's published test vectors. -/

def crcRound (c : Nat) : Nat := if c % 2 = 1 then (c / 2) ^^^ 0xEDB88320 else c / 2

def crcByte (c b : Nat) : Nat := crcRound^[8] (c ^^^ (b % 256))

def crcLoop : Nat → List Nat → Nat
  | c, [] => c
  | c, b :: rest => crcLoop (crcByte c b) rest

/-- Model of `zlib.crc32` (start value 0). -/
def crc32 (data : List Nat) : Nat := crcLoop 0xFFFFFFFF data ^^^ 0xFFFFFFFF

/-- The source's `compute_crc`: `0xFFFFFFFF & -zlib.crc32(data) - 1`, with
Python's `&` on a negative integer modelled by `Int.land` (two's
complement). -/
def compute_crc (data : List Nat) : Nat :=
  (Int.land 0xFFFFFFFF (-(crc32 data : Int) - 1)).toNat

lemma crcRound_lt (c : Nat) (h : c < 2 ^ 32) : crcRound c < 2 ^ 32 := by
  unfold crcRound
  split
  · exact Nat.xor_lt_two_pow (by omega) (by norm_num)
  · omega

lemma crcRound_iter_lt (n c : Nat) (h : c < 2 ^ 32) : crcRound^[n] c < 2 ^ 32 := by
  induction n generalizing c with
  | zero => simpa using h
  | succ n ih =>
    rw [Function.iterate_succ_apply]
    exact ih _ (crcRound_lt _ h)

lemma crcByte_lt (c b : Nat) (h : c < 2 ^ 32) : crcByte c b < 2 ^ 32 := by
  unfold crcByte
  exact crcRound_iter_lt _ _ (Nat.xor_lt_two_pow h (by have := Nat.mod_lt b (y := 256) (by omega); omega))

lemma crcLoop_lt (data : List Nat) (c : Nat) (h : c < 2 ^ 32) : crcLoop c data < 2 ^ 32 := by
  induction data generalizing c with
  | nil => simpa using h
  | cons b rest ih => exact ih _ (crcByte_lt _ _ h)

lemma crc32_lt (data : List Nat) : crc32 data < 2 ^ 32 := by
  unfold crc32
  exact Nat.xor_lt_two_pow (crcLoop_lt _ _ (by norm_num)) (by norm_num)

lemma ldiff_mask_eq_xor (c : Nat) (hc : c < 2 ^ 32) :
    Nat.ldiff 0xFFFFFFFF c = c ^^^ 0xFFFFFFFF := by
  apply Nat.eq_of_testBit_eq
  intro i
  rw [Nat.testBit_ldiff, Nat.testBit_xor,
    show (0xFFFFFFFF : Nat) = 2 ^ 32 - 1 by norm_num, Nat.testBit_two_pow_sub_one]
  by_cases hi : i < 32
  · simp [hi]
  · have hbit : c.testBit i = false :=
      Nat.testBit_eq_false_of_lt
        (lt_of_lt_of_le hc (Nat.pow_le_pow_right (by norm_num) (by omega)))
    simp [hi, hbit]

lemma compute_crc_eq_xor (b : List Nat) :
    compute_crc b = crc32 b ^^^ 0xFFFFFFFF := by
  unfold compute_crc
  have hc := crc32_lt b
  rw [show -(crc32 b : Int) - 1 = Int.negSucc (crc32 b) by rw [Int.negSucc_eq]; ring,
    show Int.land 0xFFFFFFFF (Int.negSucc (crc32 b))
        = Int.ofNat (Nat.ldiff 0xFFFFFFFF (crc32 b)) from rfl]
  simp [ldiff_mask_eq_xor _ hc]

/-- Claim C1: for every byte string `b`, the CRC engine's `compute_crc b`
equals the bitwise one's-complement of the standard zlib CRC-32 of `b`
masked to 32 bits — for `crc32 b < 2^32` that masked complement is exactly
`crc32 b ^^^ 0xFFFFFFFF`.  Determinism is immediate since `compute_crc` is
a pure function of its argument. -/
theorem compute_crc_is_complemented_crc32 (b : List Nat) :
    compute_crc b = crc32 b ^^^ 0xFFFFFFFF :=
  compute_crc_eq_xor b

/-! ## Wire encoding helpers

`struct.pack` little-endian fields.  `struct.pack` raises on out-of-range
values; theorems add the corresponding in-range hypotheses, and the packers
mask (`% 2^w`) so that they stay total. -/

/-- Little-endian 16-bit field, as written by `struct.pack("<H", n)`. -/
def pack16 (n : Nat) : List Nat := [n % 256, n / 256 % 256]

/-- Little-endian 32-bit field, as written by `struct.pack("<I", n)`. -/
def pack32 (n : Nat) : List Nat :=
  [n % 256, n / 256 % 256, n / 65536 % 256, n / 16777216 % 256]

/-- Fixed-width byte-string field `struct.pack("<ks", s)`: NUL-padded,
truncated to `k` bytes. -/
def packPadded (k : Nat) (s : List Nat) : List Nat :=
  s.take k ++ List.replicate (k - s.length) 0

/-- Little-endian value of (the first four bytes of) a buffer. -/
def le32 : List Nat → Nat
  | b0 :: b1 :: b2 :: b3 :: _ => b0 + 256 * (b1 + 256 * (b2 + 256 * b3))
  | _ => 0

/-- Read a `struct.unpack("<I", ...)` field; `none` when fewer than four
bytes remain (struct.error). -/
def read32 : List Nat → Option (Nat × List Nat)
  | b0 :: b1 :: b2 :: b3 :: r => some (b0 + 256 * (b1 + 256 * (b2 + 256 * b3)), r)
  | _ => none

/-- Read a `struct.unpack("<H", ...)` field. -/
def read16 : List Nat → Option (Nat × List Nat)
  | b0 :: b1 :: r => some (b0 + 256 * b1, r)
  | _ => none

/-- Read a single `struct.unpack("<B", ...)` byte field. -/
def readByte : List Nat → Option (Nat × List Nat)
  | b :: r => some (b, r)
  | _ => none

/-- Read a fixed-width byte-string field; `none` when the buffer is too
short (struct.error). -/
def readBytes (n : Nat) (l : List Nat) : Option (List Nat × List Nat) :=
  if n ≤ l.length then some (l.take n, l.drop n) else none

/-- The source's `cstring`: `bytestring.partition(b"\x00")[0]`, the bytes
before the first NUL. -/
def cstring (l : List Nat) : List Nat := l.takeWhile (fun b => b != 0)

/-- ASCII bytes of `b"Target"`. -/
def sigTarget : List Nat := [84, 97, 114, 103, 101, 116]

/-- ASCII bytes of `b"DfuSe"`. -/
def sigDfuSe : List Nat := [68, 102, 117, 83, 101]

/-- ASCII bytes of `b"UFD"`. -/
def sigUFD : List Nat := [85, 70, 68]

/-- ASCII bytes of `DEFAULT_NAME = b"ST..."`. -/
def defaultName : List Nat := [83, 84, 46, 46, 46]

/-! ## Container codec: build -/

/-- One entry of a `targets` element list in `build`: the dict
`{"address": ..., "alt": ..., "data": ...}`. -/
structure Image where
  address : Nat
  alt : Nat
  data : List Nat
deriving DecidableEq

/-- Wire bytes of one element: `struct.pack("<2I", address, len(data)) + data`. -/
def elementBytes (im : Image) : List Nat :=
  pack32 im.address ++ pack32 im.data.length ++ im.data

/-- The `tdata` accumulated over one target's inner loop in `build`. -/
def tdataOf : List Image → List Nat
  | [] => []
  | im :: rest => elementBytes im ++ tdataOf rest

/-- The 274-byte target header `struct.pack("<6sBI255s2I", b"Target", ealt,
1, name, len(tdata), len(target))`. -/
def targetHeader (ealt : Nat) (name : List Nat) (tsize count : Nat) : List Nat :=
  sigTarget ++ [ealt % 256] ++ pack32 1 ++ packPadded 255 name ++ pack32 tsize ++ pack32 count

/-- Concatenation of all target blobs produced by the outer loop of `build`.
The `Option Nat` argument threads the Python local `ealt`, which survives
from one target to the next; it is written by each inner-loop iteration, so
a target's header carries the alt of its *last* element.  If a target is
empty and `ealt` was never yet assigned, Python raises `NameError`
(modelled as `none`). -/
def buildTargetsData (name : List Nat) : Option Nat → List (List Image) → Option (List Nat)
  | _, [] => some []
  | e0, t :: ts =>
    match t.getLast? with
    | some im =>
      (buildTargetsData name (some im.alt) ts).map
        (fun rest => targetHeader im.alt name (tdataOf t).length t.length ++ tdataOf t ++ rest)
    | none =>
      match e0 with
      | some e => (buildTargetsData name (some e) ts).map
          (fun rest => targetHeader e name 0 0 ++ rest)
      | none => none

/-- The source's `build(file, targets, name, device)`, minus the file
write: returns the complete container bytes.  `v`/`d` are the vendor and
product ids (already split from the `device` string at the CLI boundary;
`pack16` applies the source's `& 0xFFFF` mask). -/
def build (targets : List (List Image)) (name : List Nat) (v d : Nat) : Option (List Nat) :=
  (buildTargetsData name none targets).map (fun data =>
    let withSfx :=
      sigDfuSe ++ [1] ++ pack32 (11 + data.length + 16) ++ [targets.length % 256] ++ data
        ++ pack16 0 ++ pack16 d ++ pack16 v ++ pack16 0x011A ++ sigUFD ++ [16]
    withSfx ++ pack32 (compute_crc withSfx))

/-! ## Container codec: parse

`parse` in the source consumes the buffer and prints what it finds; the
embedding returns the decoded values and diagnostic flags instead of
printing them.  A `struct.unpack` on a buffer that is too short raises
(struct.error), modelled as `none`. -/

structure ParsedElement where
  address : Nat
  size : Nat
  image : List Nat
deriving DecidableEq

structure ParsedTarget where
  altsetting : Nat
  namedFlag : Nat
  name : List Nat
  size : Nat
  elements : Nat
  images : List ParsedElement
  /-- `len(target)` nonzero after consuming all declared elements:
  the per-target "PARSE ERROR" (trailing target bytes) diagnostic. -/
  trailingBytes : Bool
deriving DecidableEq

structure ParsedSuffix where
  device : Nat
  product : Nat
  vendor : Nat
  dfu : Nat
  ufd : List Nat
  len : Nat
  crc : Nat
deriving DecidableEq

structure ParsedFile where
  signature : List Nat
  version : Nat
  size : Nat
  targetCount : Nat
  targets : List ParsedTarget
  suffix : ParsedSuffix
  /-- Computed CRC over `data[:-4]` differs from the suffix field:
  the "CRC ERROR" diagnostic. -/
  crcError : Bool
  /-- Bytes remain after the suffix: the final "PARSE ERROR" diagnostic. -/
  trailingFileBytes : Bool
deriving DecidableEq

/-- The per-target element loop of `parse`: for each declared element,
unpack `"<2I"` (address, size), then slice `size` bytes of image data
(Python slicing silently truncates).  Returns the decoded elements and the
leftover of the target slice. -/
def parseElements : Nat → List Nat → Option (List ParsedElement × List Nat)
  | 0, target => some ([], target)
  | e + 1, target =>
    (read32 target).bind fun sAddr =>
    (read32 sAddr.2).bind fun sSize =>
    (parseElements e (sSize.2.drop sSize.1)).bind fun sRest =>
    some (⟨sAddr.1, sSize.1, sSize.2.take sSize.1⟩ :: sRest.1, sRest.2)

/-- The target loop of `parse`: unpack the `"<6sBI255s2I"` header, slice
`size` bytes as the element blob, decode the declared elements inside it,
flag leftover bytes, and continue with the next target. -/
def parseTargets : Nat → List Nat → Option (List ParsedTarget × List Nat)
  | 0, data => some ([], data)
  | k + 1, data =>
    (readBytes 6 data).bind fun sSig =>
    (readByte sSig.2).bind fun sAlt =>
    (read32 sAlt.2).bind fun sNamed =>
    (readBytes 255 sNamed.2).bind fun sName =>
    (read32 sName.2).bind fun sSize =>
    (read32 sSize.2).bind fun sCount =>
    (parseElements sCount.1 (sCount.2.take sSize.1)).bind fun sImgs =>
    (parseTargets k (sCount.2.drop sSize.1)).bind fun sRest =>
    some (⟨sAlt.1, sNamed.1,
          (if sNamed.1 ≠ 0 then cstring sName.1 else []),
          sSize.1, sCount.1, sImgs.1, sImgs.2.length != 0⟩ :: sRest.1, sRest.2)

/-- The source's `parse` (file read and printing at the boundary):
CRC over `data[:-4]`, the 11-byte file header, `targets` target blocks, the
16-byte suffix, and a trailing-bytes check. -/
def parse (data : List Nat) : Option ParsedFile :=
  let crc := compute_crc (data.take (data.length - 4))
  (readBytes 5 data).bind fun sSig =>
  (readByte sSig.2).bind fun sVer =>
  (read32 sVer.2).bind fun sSize =>
  (readByte sSize.2).bind fun sCount =>
  (parseTargets sCount.1 sCount.2).bind fun sTs =>
  (read16 sTs.2).bind fun sDev =>
  (read16 sDev.2).bind fun sProd =>
  (read16 sProd.2).bind fun sVend =>
  (read16 sVend.2).bind fun sDfu =>
  (readBytes 3 sDfu.2).bind fun sUfd =>
  (readByte sUfd.2).bind fun sLen =>
  (read32 sLen.2).bind fun sCrc =>
  some ⟨sSig.1, sVer.1, sSize.1, sCount.1, sTs.1,
        ⟨sDev.1, sProd.1, sVend.1, sDfu.1, sUfd.1, sLen.1, sCrc.1⟩,
        crc != sCrc.1, sCrc.2.length != 0⟩

/-! ## Codec lemmas -/

lemma pack32_length (n : Nat) : (pack32 n).length = 4 := rfl

lemma pack16_length (n : Nat) : (pack16 n).length = 2 := rfl

lemma packPadded_length (k : Nat) (s : List Nat) : (packPadded k s).length = k := by
  simp [packPadded]
  omega

lemma targetHeader_length (e : Nat) (nm : List Nat) (a b : Nat) :
    (targetHeader e nm a b).length = 274 := by
  simp [targetHeader, sigTarget, pack32_length, packPadded_length]

lemma readByte_cons (b : Nat) (r : List Nat) : readByte (b :: r) = some (b, r) := rfl

lemma read32_pack32 (n : Nat) (r : List Nat) :
    read32 (pack32 n ++ r) = some (n % 2 ^ 32, r) := by
  simp only [pack32, List.cons_append, List.nil_append, read32, Option.some.injEq, Prod.mk.injEq]
  exact ⟨by omega, trivial⟩

lemma read32_pack32_lt {n : Nat} (h : n < 2 ^ 32) (r : List Nat) :
    read32 (pack32 n ++ r) = some (n, r) := by
  rw [read32_pack32, Nat.mod_eq_of_lt h]

lemma read16_pack16 (n : Nat) (r : List Nat) :
    read16 (pack16 n ++ r) = some (n % 2 ^ 16, r) := by
  simp only [pack16, List.cons_append, List.nil_append, read16, Option.some.injEq, Prod.mk.injEq]
  exact ⟨by omega, trivial⟩

lemma read16_pack16_lt {n : Nat} (h : n < 2 ^ 16) (r : List Nat) :
    read16 (pack16 n ++ r) = some (n, r) := by
  rw [read16_pack16, Nat.mod_eq_of_lt h]

lemma readBytes_exact {l : List Nat} {n : Nat} (h : l.length = n) (r : List Nat) :
    readBytes n (l ++ r) = some (l, r) := by
  subst h
  simp [readBytes, List.take_left, List.drop_left, Nat.le_add_right]

lemma le32_pack32 (n : Nat) : le32 (pack32 n) = n % 2 ^ 32 := by
  simp only [pack32, le32]
  omega

lemma cstring_append_replicate {nm : List Nat} (h : ∀ b ∈ nm, b ≠ 0) (k : Nat) :
    cstring (nm ++ List.replicate k 0) = nm := by
  induction nm with
  | nil =>
    cases k with
    | zero => rfl
    | succ k => simp [cstring, List.replicate_succ, List.takeWhile]
  | cons b nm ih =>
    have hb : (b != 0) = true := by simpa using h b (by simp)
    simp only [List.cons_append, cstring] at *
    rw [List.takeWhile_cons, if_pos hb, ih (fun x hx => h x (by simp [hx]))]

lemma packPadded_of_le {s : List Nat} {k : Nat} (h : s.length ≤ k) :
    packPadded k s = s ++ List.replicate (k - s.length) 0 := by
  simp [packPadded, List.take_of_length_le h]

lemma cstring_packPadded {nm : List Nat} (h0 : ∀ b ∈ nm, b ≠ 0) (h1 : nm.length ≤ 255) :
    cstring (packPadded 255 nm) = nm := by
  rw [packPadded_of_le h1, cstring_append_replicate h0]

/-- The parsed form of an element that `build` wrote from `im`. -/
def mkPE (im : Image) : ParsedElement := ⟨im.address, im.data.length, im.data⟩

/-- The alt value `build` writes for a target: the `alt` of its last
element (the Python local `ealt` after the inner loop). -/
def lastAltD (t : List Image) : Nat :=
  match t.getLast? with
  | some im => im.alt
  | none => 0

/-- The parsed form of a whole target that `build` wrote from `t`. -/
def mkPT (name : List Nat) (t : List Image) : ParsedTarget :=
  ⟨lastAltD t, 1, name, (tdataOf t).length, t.length, t.map mkPE, false⟩

lemma parseElements_tdata (t : List Image) (rest : List Nat)
    (hb : ∀ im ∈ t, im.address < 2 ^ 32 ∧ im.data.length < 2 ^ 32) :
    parseElements t.length (tdataOf t ++ rest) = some (t.map mkPE, rest) := by
  induction t generalizing rest with
  | nil => simp [tdataOf, parseElements]
  | cons im t ih =>
    obtain ⟨ha, hd⟩ := hb im (by simp)
    simp only [tdataOf, elementBytes, List.length_cons, List.append_assoc, List.map_cons,
      parseElements, read32_pack32_lt ha, read32_pack32_lt hd, Option.some_bind,
      List.take_left, List.drop_left, ih rest (fun x hx => hb x (by simp [hx]))]
    rfl

lemma parseTargets_build (name : List Nat) (hnm : ∀ b ∈ name, b ≠ 0) (hnml : name.length ≤ 255)
    (ts : List (List Image)) :
    ∀ (e0 : Option Nat) (blobs rest : List Nat),
    (∀ t ∈ ts, t ≠ []) →
    (∀ t ∈ ts, ∀ im ∈ t, im.address < 2 ^ 32 ∧ im.alt < 256 ∧ im.data.length < 2 ^ 32) →
    (∀ t ∈ ts, (tdataOf t).length < 2 ^ 32 ∧ t.length < 2 ^ 32) →
    buildTargetsData name e0 ts = some blobs →
    parseTargets ts.length (blobs ++ rest) = some (ts.map (mkPT name), rest) := by
  induction ts with
  | nil =>
    intro e0 blobs rest _ _ _ hb
    simp only [buildTargetsData, Option.some.injEq] at hb
    subst hb
    simp [parseTargets]
  | cons t ts ih =>
    intro e0 blobs rest hne hbounds hsizes hb
    have hne_t : t ≠ [] := hne t (by simp)
    obtain ⟨imL, hlast⟩ : ∃ im, t.getLast? = some im :=
      ⟨t.getLast hne_t, List.getLast?_eq_getLast t hne_t⟩
    have hmem : imL ∈ t := by
      have := List.getLast?_eq_getLast t hne_t
      rw [this] at hlast
      cases hlast
      exact List.getLast_mem hne_t
    simp only [buildTargetsData, hlast] at hb
    obtain ⟨blobs', hb', hblobs⟩ := Option.map_eq_some'.mp hb
    subst hblobs
    have halt : imL.alt < 256 := (hbounds t (by simp) imL hmem).2.1
    have hts : (tdataOf t).length < 2 ^ 32 := (hsizes t (by simp)).1
    have hcnt : t.length < 2 ^ 32 := (hsizes t (by simp)).2
    have hpe : parseElements t.length (tdataOf t) = some (t.map mkPE, []) := by
      have := parseElements_tdata t []
        (fun im him => ⟨(hbounds t (by simp) im him).1, (hbounds t (by simp) im him).2.2⟩)
      simpa using this
    have hih := ih (some imL.alt) blobs' rest
      (fun x hx => hne x (by simp [hx]))
      (fun x hx => hbounds x (by simp [hx]))
      (fun x hx => hsizes x (by simp [hx])) hb'
    simp [List.length_cons, List.map_cons, parseTargets, targetHeader,
      List.append_assoc, List.singleton_append, Option.some_bind, readByte_cons,
      readBytes_exact (show sigTarget.length = 6 from rfl),
      readBytes_exact (packPadded_length 255 name),
      read32_pack32_lt (show (1 : Nat) < 2 ^ 32 by norm_num),
      read32_pack32_lt hts, read32_pack32_lt hcnt,
      List.take_left, List.drop_left, hpe, hih,
      mkPT, lastAltD, hlast, cstring_packPadded hnm hnml, Nat.mod_eq_of_lt halt]

lemma read32_pack32_nil (n : Nat) : read32 (pack32 n) = some (n % 2 ^ 32, []) := by
  have h := read32_pack32 n []
  simpa using h

lemma compute_crc_lt (data : List Nat) : compute_crc data < 2 ^ 32 := by
  rw [compute_crc_eq_xor]
  exact Nat.xor_lt_two_pow (crc32_lt data) (by norm_num)

lemma take_sub_four (w : List Nat) (c : Nat) :
    (w ++ pack32 c).take ((w ++ pack32 c).length - 4) = w := by
  simp [List.length_append, pack32_length, List.take_left]

lemma buildTargetsData_isSome (name : List Nat) (ts : List (List Image)) :
    ∀ e0 : Option Nat, (∀ t ∈ ts, t ≠ []) →
    ∃ blobs, buildTargetsData name e0 ts = some blobs := by
  induction ts with
  | nil => exact fun e0 _ => ⟨[], rfl⟩
  | cons t ts ih =>
    intro e0 hne
    have hne_t : t ≠ [] := hne t (by simp)
    obtain ⟨imL, hlast⟩ : ∃ im, t.getLast? = some im :=
      ⟨t.getLast hne_t, List.getLast?_eq_getLast t hne_t⟩
    obtain ⟨blobs', hb'⟩ := ih (some imL.alt) (fun x hx => hne x (by simp [hx]))
    exact ⟨targetHeader imL.alt name (tdataOf t).length t.length ++ tdataOf t ++ blobs',
      by simp [buildTargetsData, hlast, hb', List.append_assoc]⟩

set_option maxHeartbeats 4000000 in
/-- Claim C2: for every well-formed target list (each target non-empty, all
elements of a target sharing one alt-setting, name NUL-free and at most 255
bytes, together with the data-model range invariants: 32-bit addresses and
sizes, 8-bit alt-settings and target count — out of range, `struct.pack`
would raise and `build` would produce nothing), parsing the bytes produced
by `build` reproduces the list exactly: element addresses, sizes and data,
per-target alt-setting, element count and name are all preserved.  Element
sizes on the wire are `len(data)` by construction, so size preservation is
the `e.size = im.data.length` component. -/
theorem build_parse_roundtrip (targets : List (List Image)) (name : List Nat) (v d : Nat)
    (hne : ∀ t ∈ targets, t ≠ [])
    (halt : ∀ t ∈ targets, ∀ im ∈ t, ∀ im2 ∈ t, im.alt = im2.alt)
    (hbounds : ∀ t ∈ targets, ∀ im ∈ t, im.address < 2 ^ 32 ∧ im.alt < 256 ∧ im.data.length < 2 ^ 32)
    (hsizes : ∀ t ∈ targets, (tdataOf t).length < 2 ^ 32 ∧ t.length < 2 ^ 32)
    (htc : targets.length < 256)
    (hnm : ∀ b ∈ name, b ≠ 0) (hnml : name.length ≤ 255) :
    ∃ out p, build targets name v d = some out ∧ parse out = some p ∧
      p.targetCount = targets.length ∧
      p.targets.map ParsedTarget.altsetting = targets.map lastAltD ∧
      (∀ t ∈ targets, ∀ im ∈ t, lastAltD t = im.alt) ∧
      p.targets.map ParsedTarget.name = targets.map (fun _ => name) ∧
      p.targets.map ParsedTarget.elements = targets.map List.length ∧
      p.targets.map (fun pt => pt.images.map (fun e => (e.address, e.size, e.image)))
        = targets.map (fun t => t.map (fun im => (im.address, im.data.length, im.data))) := by
  obtain ⟨blobs, hbt⟩ := buildTargetsData_isSome name targets none hne
  have hpt : ∀ rest, parseTargets targets.length (blobs ++ rest)
      = some (targets.map (mkPT name), rest) :=
    fun rest => parseTargets_build name hnm hnml targets none blobs rest hne hbounds hsizes hbt
  have hbuild : build targets name v d =
      some ((sigDfuSe ++ [1] ++ pack32 (11 + blobs.length + 16) ++ [targets.length % 256] ++ blobs
        ++ pack16 0 ++ pack16 d ++ pack16 v ++ pack16 0x011A ++ sigUFD ++ [16]) ++
        pack32 (compute_crc (sigDfuSe ++ [1] ++ pack32 (11 + blobs.length + 16)
          ++ [targets.length % 256] ++ blobs
          ++ pack16 0 ++ pack16 d ++ pack16 v ++ pack16 0x011A ++ sigUFD ++ [16]))) := by
    unfold build
    rw [hbt]
    rfl
  have hkey : (parse ((sigDfuSe ++ [1] ++ pack32 (11 + blobs.length + 16)
        ++ [targets.length % 256] ++ blobs
        ++ pack16 0 ++ pack16 d ++ pack16 v ++ pack16 0x011A ++ sigUFD ++ [16]) ++
        pack32 (compute_crc (sigDfuSe ++ [1] ++ pack32 (11 + blobs.length + 16)
          ++ [targets.length % 256] ++ blobs
          ++ pack16 0 ++ pack16 d ++ pack16 v ++ pack16 0x011A ++ sigUFD ++ [16])))).map
        (fun p => (p.targetCount, p.targets))
      = some (targets.length, targets.map (mkPT name)) := by
    simp only [List.append_assoc, List.cons_append, List.singleton_append, List.nil_append]
    simp only [parse]
    simp only [readBytes_exact (show sigDfuSe.length = 5 from rfl), Option.some_bind]
    simp only [readByte_cons, Option.some_bind, read32_pack32, Nat.mod_eq_of_lt htc, hpt,
      read16_pack16, readBytes_exact (show sigUFD.length = 3 from rfl), read32_pack32_nil,
      Option.map_some']
  obtain ⟨p, hp⟩ : ∃ p, parse ((sigDfuSe ++ [1] ++ pack32 (11 + blobs.length + 16)
        ++ [targets.length % 256] ++ blobs
        ++ pack16 0 ++ pack16 d ++ pack16 v ++ pack16 0x011A ++ sigUFD ++ [16]) ++
        pack32 (compute_crc (sigDfuSe ++ [1] ++ pack32 (11 + blobs.length + 16)
          ++ [targets.length % 256] ++ blobs
          ++ pack16 0 ++ pack16 d ++ pack16 v ++ pack16 0x011A ++ sigUFD ++ [16]))) = some p := by
    cases hpp : parse ((sigDfuSe ++ [1] ++ pack32 (11 + blobs.length + 16)
        ++ [targets.length % 256] ++ blobs
        ++ pack16 0 ++ pack16 d ++ pack16 v ++ pack16 0x011A ++ sigUFD ++ [16]) ++
        pack32 (compute_crc (sigDfuSe ++ [1] ++ pack32 (11 + blobs.length + 16)
          ++ [targets.length % 256] ++ blobs
          ++ pack16 0 ++ pack16 d ++ pack16 v ++ pack16 0x011A ++ sigUFD ++ [16]))) with
    | none => rw [hpp] at hkey; simp at hkey
    | some q => exact ⟨q, rfl⟩
  rw [hp] at hkey
  rw [Option.map_some'] at hkey
  have hcount : p.targetCount = targets.length := congrArg Prod.fst (Option.some.inj hkey)
  have htargets : p.targets = targets.map (mkPT name) := congrArg Prod.snd (Option.some.inj hkey)
  refine ⟨_, p, hbuild, hp, hcount, ?_, ?_, ?_, ?_, ?_⟩
  · rw [htargets, List.map_map]
    exact List.map_congr_left (fun t _ => rfl)
  · intro t ht im him
    have hne_t : t ≠ [] := hne t ht
    unfold lastAltD
    rw [List.getLast?_eq_getLast t hne_t]
    exact halt t ht _ (List.getLast_mem hne_t) im him
  · rw [htargets, List.map_map]
    exact List.map_congr_left (fun t _ => rfl)
  · rw [htargets, List.map_map]
    exact List.map_congr_left (fun t _ => rfl)
  · rw [htargets, List.map_map]
    refine List.map_congr_left (fun t _ => ?_)
    simp only [Function.comp_apply, mkPT]
    rw [List.map_map]
    exact List.map_congr_left (fun im _ => rfl)

/-- Witness for C2: a concrete two-target list (alts 2 and 5, a multi-element
first target) satisfying every hypothesis of `build_parse_roundtrip`. -/
theorem build_parse_roundtrip_witness :
    ∃ out p, build [[⟨4096, 2, [1, 2]⟩, ⟨9999, 2, [3]⟩], [⟨0, 5, []⟩]] [77, 67, 85] 1155 57105
        = some out ∧ parse out = some p ∧
      p.targetCount = [[(⟨4096, 2, [1, 2]⟩ : Image), ⟨9999, 2, [3]⟩], [⟨0, 5, []⟩]].length ∧
      p.targets.map ParsedTarget.altsetting
        = [[(⟨4096, 2, [1, 2]⟩ : Image), ⟨9999, 2, [3]⟩], [⟨0, 5, []⟩]].map lastAltD ∧
      (∀ t ∈ [[(⟨4096, 2, [1, 2]⟩ : Image), ⟨9999, 2, [3]⟩], [⟨0, 5, []⟩]], ∀ im ∈ t,
        lastAltD t = im.alt) ∧
      p.targets.map ParsedTarget.name
        = [[(⟨4096, 2, [1, 2]⟩ : Image), ⟨9999, 2, [3]⟩], [⟨0, 5, []⟩]].map (fun _ => [77, 67, 85]) ∧
      p.targets.map ParsedTarget.elements
        = [[(⟨4096, 2, [1, 2]⟩ : Image), ⟨9999, 2, [3]⟩], [⟨0, 5, []⟩]].map List.length ∧
      p.targets.map (fun pt => pt.images.map (fun e => (e.address, e.size, e.image)))
        = [[(⟨4096, 2, [1, 2]⟩ : Image), ⟨9999, 2, [3]⟩], [⟨0, 5, []⟩]].map
            (fun t => t.map (fun im => (im.address, im.data.length, im.data))) :=
  build_parse_roundtrip [[⟨4096, 2, [1, 2]⟩, ⟨9999, 2, [3]⟩], [⟨0, 5, []⟩]] [77, 67, 85] 1155 57105
    (by decide) (by decide) (by decide) (by decide) (by decide) (by decide) (by decide)

/-- Claim C3: the 32-bit little-endian size field at offset 6 of the file
prefix written by `build` equals 11 (prefix) plus the total length of all
target blobs plus 16 (suffix), and that value equals the length of the
complete output including the trailing CRC.  The range hypothesis mirrors
`struct.pack("<I", ...)`, which would raise on an out-of-range size. -/
theorem size_field_total (targets : List (List Image)) (name : List Nat) (v d : Nat)
    (blobs : List Nat)
    (hbt : buildTargetsData name none targets = some blobs)
    (hsz : 27 + blobs.length < 2 ^ 32) :
    ∃ out, build targets name v d = some out ∧
      le32 ((out.drop 6).take 4) = 11 + blobs.length + 16 ∧
      out.length = 11 + blobs.length + 16 := by
  have hbuild : build targets name v d =
      some ((sigDfuSe ++ [1] ++ pack32 (11 + blobs.length + 16) ++ [targets.length % 256] ++ blobs
        ++ pack16 0 ++ pack16 d ++ pack16 v ++ pack16 0x011A ++ sigUFD ++ [16]) ++
        pack32 (compute_crc (sigDfuSe ++ [1] ++ pack32 (11 + blobs.length + 16)
          ++ [targets.length % 256] ++ blobs
          ++ pack16 0 ++ pack16 d ++ pack16 v ++ pack16 0x011A ++ sigUFD ++ [16]))) := by
    unfold build
    rw [hbt]
    rfl
  refine ⟨_, hbuild, ?_, ?_⟩
  · have hshape : ((sigDfuSe ++ [1] ++ pack32 (11 + blobs.length + 16)
        ++ [targets.length % 256] ++ blobs
        ++ pack16 0 ++ pack16 d ++ pack16 v ++ pack16 0x011A ++ sigUFD ++ [16]) ++
        pack32 (compute_crc (sigDfuSe ++ [1] ++ pack32 (11 + blobs.length + 16)
          ++ [targets.length % 256] ++ blobs
          ++ pack16 0 ++ pack16 d ++ pack16 v ++ pack16 0x011A ++ sigUFD ++ [16])) : List Nat)
        = (sigDfuSe ++ [1]) ++ (pack32 (11 + blobs.length + 16)
          ++ ([targets.length % 256] ++ blobs
          ++ pack16 0 ++ pack16 d ++ pack16 v ++ pack16 0x011A ++ sigUFD ++ [16]
          ++ pack32 (compute_crc (sigDfuSe ++ [1] ++ pack32 (11 + blobs.length + 16)
            ++ [targets.length % 256] ++ blobs
            ++ pack16 0 ++ pack16 d ++ pack16 v ++ pack16 0x011A ++ sigUFD ++ [16])))) := by
      simp [List.append_assoc]
    rw [hshape, List.drop_left' (show ((sigDfuSe ++ [1] : List Nat)).length = 6 from rfl),
      List.take_left' (pack32_length _), le32_pack32]
    omega
  · simp only [List.length_append, pack32_length, pack16_length]
    simp [sigDfuSe, sigUFD]

set_option maxRecDepth 8192 in
/-- Witness for C3: a single one-element target with empty data. -/
theorem size_field_total_witness :
    ∃ out, build [[(⟨0, 0, []⟩ : Image)]] [] 0 0 = some out ∧
      le32 ((out.drop 6).take 4)
        = 11 + ((buildTargetsData [] none [[⟨0, 0, []⟩]]).getD []).length + 16 ∧
      out.length = 11 + ((buildTargetsData [] none [[⟨0, 0, []⟩]]).getD []).length + 16 :=
  size_field_total [[⟨0, 0, []⟩]] [] 0 0 _ (by rfl) (by decide)

/-- Claim C10: for a non-empty target, `build` writes the alt value of the
target's *last* element as the target's alt-setting byte (offset 17 of the
output for a single-target build): the Python local `ealt` is overwritten
by every inner-loop iteration, so only the last element's alt survives,
whatever the alts of earlier elements were. -/
theorem last_element_alt_written (t : List Image) (ht : t ≠ []) (name : List Nat) (v d : Nat)
    (haltb : (t.getLast ht).alt < 256) :
    ∃ out, build [t] name v d = some out ∧ out.getD 17 0 = (t.getLast ht).alt := by
  have hlast : t.getLast? = some (t.getLast ht) := List.getLast?_eq_getLast t ht
  have hbt : buildTargetsData name none [t]
      = some (targetHeader (t.getLast ht).alt name (tdataOf t).length t.length ++ tdataOf t) := by
    simp [buildTargetsData, hlast]
  have hbuild : build [t] name v d =
      some ((sigDfuSe ++ [1] ++ pack32 (11 + (targetHeader (t.getLast ht).alt name
          (tdataOf t).length t.length ++ tdataOf t).length + 16) ++ [1]
        ++ (targetHeader (t.getLast ht).alt name (tdataOf t).length t.length ++ tdataOf t)
        ++ pack16 0 ++ pack16 d ++ pack16 v ++ pack16 0x011A ++ sigUFD ++ [16]) ++
        pack32 (compute_crc (sigDfuSe ++ [1] ++ pack32 (11 + (targetHeader (t.getLast ht).alt name
          (tdataOf t).length t.length ++ tdataOf t).length + 16) ++ [1]
        ++ (targetHeader (t.getLast ht).alt name (tdataOf t).length t.length ++ tdataOf t)
        ++ pack16 0 ++ pack16 d ++ pack16 v ++ pack16 0x011A ++ sigUFD ++ [16]))) := by
    unfold build
    rw [hbt]
    rfl
  refine ⟨_, hbuild, ?_⟩
  have hshape : ((sigDfuSe ++ [1] ++ pack32 (11 + (targetHeader (t.getLast ht).alt name
          (tdataOf t).length t.length ++ tdataOf t).length + 16) ++ [1]
        ++ (targetHeader (t.getLast ht).alt name (tdataOf t).length t.length ++ tdataOf t)
        ++ pack16 0 ++ pack16 d ++ pack16 v ++ pack16 0x011A ++ sigUFD ++ [16]) ++
        pack32 (compute_crc (sigDfuSe ++ [1] ++ pack32 (11 + (targetHeader (t.getLast ht).alt name
          (tdataOf t).length t.length ++ tdataOf t).length + 16) ++ [1]
        ++ (targetHeader (t.getLast ht).alt name (tdataOf t).length t.length ++ tdataOf t)
        ++ pack16 0 ++ pack16 d ++ pack16 v ++ pack16 0x011A ++ sigUFD ++ [16])) : List Nat)
      = (sigDfuSe ++ [1] ++ pack32 (11 + (targetHeader (t.getLast ht).alt name
          (tdataOf t).length t.length ++ tdataOf t).length + 16) ++ [1] ++ sigTarget)
        ++ ((t.getLast ht).alt % 256
          :: (pack32 1 ++ packPadded 255 name ++ pack32 (tdataOf t).length ++ pack32 t.length
            ++ tdataOf t
            ++ pack16 0 ++ pack16 d ++ pack16 v ++ pack16 0x011A ++ sigUFD ++ [16]
            ++ pack32 (compute_crc (sigDfuSe ++ [1] ++ pack32 (11 + (targetHeader (t.getLast ht).alt
                name (tdataOf t).length t.length ++ tdataOf t).length + 16) ++ [1]
              ++ (targetHeader (t.getLast ht).alt name (tdataOf t).length t.length ++ tdataOf t)
              ++ pack16 0 ++ pack16 d ++ pack16 v ++ pack16 0x011A ++ sigUFD ++ [16])))) := by
    simp [targetHeader, List.append_assoc]
  rw [hshape,
    List.getD_append_right _ _ _ _ (by
      simp only [List.length_append, pack32_length]
      simp [sigDfuSe, sigTarget])]
  simp only [List.length_append, pack32_length]
  simp [sigDfuSe, sigTarget]
  exact haltb

set_option maxRecDepth 8192 in
/-- Witness for C10: a target whose two elements carry differing alts
(3 then 7); the written alt-setting byte is 7, the last element's. -/
theorem last_element_alt_written_witness :
    ∃ out, build [[(⟨0, 3, [9]⟩ : Image), ⟨4, 7, [8]⟩]] [] 0 0 = some out ∧
      out.getD 17 0 = ([(⟨0, 3, [9]⟩ : Image), ⟨4, 7, [8]⟩].getLast (by decide)).alt :=
  last_element_alt_written [⟨0, 3, [9]⟩, ⟨4, 7, [8]⟩] (by decide) [] 0 0 (by decide)

/-! ## Pre-flight suffix check (`checkbin`)

Returns `true` when the source would print the already-suffixed warning and
call `sys.exit(1)` — i.e. the input must be refused — and `false` when
`checkbin` falls through and the build continues. -/
def checkbin (data : List Nat) : Bool :=
  if data.length < 16 then false
  else
    let crc := compute_crc (data.take (data.length - 4))
    let sfx := data.drop (data.length - 16)
    (crc == le32 ((sfx.drop 12).take 4)) && ((sfx.drop 8).take 3 == sigUFD)

/-! ## Python numeric literals

`int(address, 0)` parses a base-prefixed literal: `0x`/`0X` hex, `0o`/`0O`
octal, `0b`/`0B` binary, else decimal, where a *nonzero* literal with a
plain leading zero (Python 2 octal, e.g. `"010"`) raises `ValueError`.
An optional single sign is accepted.  (Whitespace and underscore digit
separators, which Python also tolerates, are not modelled.) -/

def digitVal? (base : Nat) (c : Char) : Option Nat :=
  let v : Option Nat :=
    if '0' ≤ c ∧ c ≤ '9' then some (c.toNat - 48)
    else if 'a' ≤ c ∧ c ≤ 'z' then some (c.toNat - 87)
    else if 'A' ≤ c ∧ c ≤ 'Z' then some (c.toNat - 55)
    else none
  match v with
  | some v => if v < base then some v else none
  | none => none

def digitsValAux (base : Nat) (acc : Nat) : List Char → Option Nat
  | [] => some acc
  | c :: cs =>
    match digitVal? base c with
    | some v => digitsValAux base (base * acc + v) cs
    | none => none

/-- Value of a non-empty all-digit string in the given base; `none` on an
empty string or a bad digit. -/
def digitsVal? (base : Nat) : List Char → Option Nat
  | [] => none
  | c :: cs => digitsValAux base 0 (c :: cs)

/-- The unsigned part of Python's `int(s, 0)`. -/
def pyIntCore : List Char → Option Nat
  | [] => none
  | c :: cs =>
    if c = '0' then
      match cs with
      | [] => some 0
      | c2 :: rest =>
        if c2 = 'x' ∨ c2 = 'X' then digitsVal? 16 rest
        else if c2 = 'o' ∨ c2 = 'O' then digitsVal? 8 rest
        else if c2 = 'b' ∨ c2 = 'B' then digitsVal? 2 rest
        else if (c2 :: rest).all (fun ch => ch == '0') then some 0
        else none
    else digitsVal? 10 (c :: cs)

/-- Python's `int(s, 0)` with an optional sign. -/
def pyIntBase0 : List Char → Option Int
  | [] => none
  | c :: cs =>
    if c = '-' then (pyIntCore cs).map (fun n => -(n : Int))
    else if c = '+' then (pyIntCore cs).map (fun n => (n : Int))
    else (pyIntCore (c :: cs)).map (fun n => (n : Int))

/-- Python's `int(s)` (base 10) with an optional sign, for the `@alt`
field. -/
def pyInt10 : List Char → Option Int
  | [] => none
  | c :: cs =>
    if c = '-' then (digitsVal? 10 cs).map (fun n => -(n : Int))
    else if c = '+' then (digitsVal? 10 cs).map (fun n => (n : Int))
    else (digitsVal? 10 (c :: cs)).map (fun n => (n : Int))

/-- The binary build branch's `int(address, 0) & 0xFFFFFFFF`; `none` is
the `ValueError` path ("Address ... invalid.", exit 1). -/
def parseAddress (s : List Char) : Option Nat :=
  (pyIntBase0 s).map (fun i => (i % (2 ^ 32 : Int)).toNat)

/-! ## Binary-descriptor ingestion (the `options.binfiles` loop) -/

/-- Python `address.split("@", 1)`: split at the first separator; `none` when the
separator is absent (the `except ValueError` path). -/
def pySplitOnce (sep : Char) : List Char → Option (List Char × List Char)
  | [] => none
  | c :: cs =>
    if c = sep then some ([], cs)
    else (pySplitOnce sep cs).map (fun p => (c :: p.1, p.2))

inductive BinErr where
  /-- Any "… invalid." + `sys.exit(1)` path of the descriptor loop. -/
  | descriptorError
  /-- `checkbin` detected a DFU suffix and exited. -/
  | alreadySuffixed
deriving DecidableEq

/-- One `-b` descriptor after the CLI-level `arg.split(":", 1)`: the
`address[@alt]` field and the bytes of the referenced file (file reading
happens at the boundary). -/
structure BinItem where
  addrField : List Char
  contents : List Nat

/-- One iteration of the `binfiles` loop: optional `@alt` split (an
unparseable alt or address exits), then the `checkbin` gate.  A negative
alt is truncated by `toNat`; Python would only fault later, in
`struct.pack`. -/
def binItemImage (defaultAlt : Nat) (it : BinItem) : Except BinErr Image :=
  let split := pySplitOnce '@' it.addrField
  let addrStr := match split with
    | none => it.addrField
    | some p => p.1
  let altRes : Except BinErr Nat := match split with
    | none => Except.ok defaultAlt
    | some p =>
      match p.2 with
      | [] => Except.ok defaultAlt
      | c :: cs =>
        match pyInt10 (c :: cs) with
        | some i => Except.ok i.toNat
        | none => Except.error BinErr.descriptorError
  match altRes with
  | Except.error e => Except.error e
  | Except.ok ealt =>
    match parseAddress addrStr with
    | none => Except.error BinErr.descriptorError
    | some addr =>
      if checkbin it.contents then Except.error BinErr.alreadySuffixed
      else Except.ok ⟨addr, ealt, it.contents⟩

/-- The grouping loop: a changed alt closes the current target; the final
`targets.append(target)` happens after the loop. -/
def binIngestAux (defaultAlt : Nat) :
    List BinItem → List (List Image) → List Image → Option Nat → Except BinErr (List (List Image))
  | [], targets, target, _ => Except.ok (targets ++ [target])
  | it :: rest, targets, target, old =>
    match binItemImage defaultAlt it with
    | Except.error e => Except.error e
    | Except.ok im =>
      match old with
      | some o =>
        if im.alt ≠ o then binIngestAux defaultAlt rest (targets ++ [target]) [im] (some im.alt)
        else binIngestAux defaultAlt rest targets (target ++ [im]) (some im.alt)
      | none => binIngestAux defaultAlt rest targets (target ++ [im]) (some im.alt)

/-- The whole `options.binfiles` branch up to (not including) `build`. -/
def binIngest (defaultAlt : Nat) (items : List BinItem) : Except BinErr (List (List Image)) :=
  binIngestAux defaultAlt items [] [] none

lemma pySplitOnce_eq_none {sep : Char} {l : List Char} (h : sep ∉ l) :
    pySplitOnce sep l = none := by
  induction l with
  | nil => rfl
  | cons c cs ih =>
    have hc : ¬c = sep := fun hcs => h (hcs ▸ List.mem_cons_self c cs)
    simp only [pySplitOnce, if_neg hc, ih (fun hm => h (List.mem_cons_of_mem c hm)),
      Option.map_none']

/-- Claim C4: appending a valid 16-byte DFU suffix (12 bytes whose marker
field, offsets 8-10, reads "UFD", then the complemented CRC-32 of all
preceding bytes) to any byte buffer makes `checkbin` report
already-suffixed (the source prints the warning and exits 1), and feeding
such a buffer as a raw binary-block descriptor makes the whole binary build
branch abort with `AlreadySuffixed` before `build` runs, so no output file
is produced. -/
theorem suffixed_input_refused (b s : List Nat) (hs : s.length = 12)
    (hm : (s.drop 8).take 3 = sigUFD) :
    checkbin (b ++ s ++ pack32 (compute_crc (b ++ s))) = true ∧
    ∀ (alt : Nat) (addrStr : List Char) (a : Nat), '@' ∉ addrStr →
      parseAddress addrStr = some a →
      binIngest alt [⟨addrStr, b ++ s ++ pack32 (compute_crc (b ++ s))⟩]
        = Except.error BinErr.alreadySuffixed := by
  have hlen : (b ++ s ++ pack32 (compute_crc (b ++ s))).length = b.length + 16 := by
    simp [List.length_append, pack32_length, hs]
  have hcb : checkbin (b ++ s ++ pack32 (compute_crc (b ++ s))) = true := by
    unfold checkbin
    rw [if_neg (by omega)]
    have htake : (b ++ s ++ pack32 (compute_crc (b ++ s))).take
        ((b ++ s ++ pack32 (compute_crc (b ++ s))).length - 4) = b ++ s :=
      take_sub_four (b ++ s) _
    have hdrop : (b ++ s ++ pack32 (compute_crc (b ++ s))).drop
        ((b ++ s ++ pack32 (compute_crc (b ++ s))).length - 16)
        = s ++ pack32 (compute_crc (b ++ s)) := by
      rw [hlen, show b.length + 16 - 16 = b.length from by omega,
        List.append_assoc, List.drop_left]
    rw [htake, hdrop]
    have h12 : ((s ++ pack32 (compute_crc (b ++ s))).drop 12).take 4
        = pack32 (compute_crc (b ++ s)) := by
      rw [List.drop_left' hs, List.take_of_length_le (by rw [pack32_length])]
    have h8 : ((s ++ pack32 (compute_crc (b ++ s))).drop 8).take 3 = sigUFD := by
      rw [List.drop_append_eq_append_drop, List.take_append_eq_append_take]
      simp [hs, hm]
    simp only [h12, h8, le32_pack32, Nat.mod_eq_of_lt (compute_crc_lt _)]
    simp
  refine ⟨hcb, ?_⟩
  intro alt addrStr a hna hpa
  have hcb2 : checkbin (b ++ (s ++ pack32 (compute_crc (b ++ s)))) = true := by
    rw [← List.append_assoc]
    exact hcb
  simp [binIngest, binIngestAux, binItemImage, pySplitOnce_eq_none hna, hpa, hcb2]

set_option maxRecDepth 8192 in
/-- Witness for C4: an empty payload with an all-zero suffix body carrying
the "UFD" marker, fed as descriptor `0:<file>`. -/
theorem suffixed_input_refused_witness :
    checkbin ([] ++ [0, 0, 0, 0, 0, 0, 0, 0, 85, 70, 68, 16]
      ++ pack32 (compute_crc ([] ++ [0, 0, 0, 0, 0, 0, 0, 0, 85, 70, 68, 16]))) = true ∧
    binIngest 0 [⟨['0'], [] ++ [0, 0, 0, 0, 0, 0, 0, 0, 85, 70, 68, 16]
      ++ pack32 (compute_crc ([] ++ [0, 0, 0, 0, 0, 0, 0, 0, 85, 70, 68, 16]))⟩]
      = Except.error BinErr.alreadySuffixed :=
  ⟨(suffixed_input_refused [] [0, 0, 0, 0, 0, 0, 0, 0, 85, 70, 68, 16]
      (by decide) (by decide)).1,
   (suffixed_input_refused [] [0, 0, 0, 0, 0, 0, 0, 0, 85, 70, 68, 16]
      (by decide) (by decide)).2 0 ['0'] 0 (by decide) (by decide)⟩

/-- Counterexample for C8: the claim says a plain leading-zero octal
literal such as "010" parses as 8; in fact Python 3's `int("010", 0)`
raises `ValueError`, so the address is rejected (`DescriptorError`), both
at the `int(address, 0)` call and for the whole descriptor loop. -/
theorem leading_zero_address_rejected :
    parseAddress ['0', '1', '0'] = none ∧
    parseAddress ['0', '1', '0'] ≠ some 8 ∧
    binIngest 0 [⟨['0', '1', '0'], []⟩] = Except.error BinErr.descriptorError := by
  refine ⟨rfl, ?_, rfl⟩
  decide

/-- The digit-to-character table used to state the amended C8 claim. -/
def digitChar (d : Nat) : Char := if d < 10 then Char.ofNat (48 + d) else Char.ofNat (87 + d)

/-- Positional value of a digit-value string. -/
def baseVal (base : Nat) (ds : List Nat) : Nat := ds.foldl (fun a d => base * a + d) 0

lemma digitVal_digitChar {base d : Nat} (hb : base ≤ 16) (hd : d < base) :
    digitVal? base (digitChar d) = some d := by
  have h16 : d < 16 := lt_of_lt_of_le hd hb
  interval_cases d <;> simp [digitChar, digitVal?, hd]

lemma digitsValAux_map {base : Nat} (hb : base ≤ 16) (ds : List Nat) :
    ∀ acc : Nat, (∀ d ∈ ds, d < base) →
    digitsValAux base acc (ds.map digitChar)
      = some (ds.foldl (fun a d => base * a + d) acc) := by
  induction ds with
  | nil => intro acc _; rfl
  | cons d ds ih =>
    intro acc h
    simp only [List.map_cons, digitsValAux, digitVal_digitChar hb (h d (by simp)),
      List.foldl_cons]
    exact ih _ (fun x hx => h x (by simp [hx]))

lemma digitsVal_map {base : Nat} (hb : base ≤ 16) (ds : List Nat) (hne : ds ≠ [])
    (h : ∀ d ∈ ds, d < base) :
    digitsVal? base (ds.map digitChar) = some (baseVal base ds) := by
  cases ds with
  | nil => exact absurd rfl hne
  | cons d ds =>
    simp only [List.map_cons, digitsVal?, baseVal]
    have := digitsValAux_map hb (d :: ds) 0 h
    simpa using this

/-- Amended claim C8: the binary-block ingester accepts Python base-0
numeric literals — hexadecimal with a `0x` prefix, octal with a `0o`
prefix, and decimal *without* a leading zero — parsing each to its value
masked to 32 bits; a nonzero literal with a plain leading `0` (such as
"010", Python 2 octal) is NOT accepted and fails with `DescriptorError`. -/
theorem address_literal_notations :
    (∀ ds : List Nat, ds ≠ [] → (∀ d ∈ ds, d < 16) →
      parseAddress ('0' :: 'x' :: ds.map digitChar) = some (baseVal 16 ds % 2 ^ 32)) ∧
    (∀ ds : List Nat, ds ≠ [] → (∀ d ∈ ds, d < 8) →
      parseAddress ('0' :: 'o' :: ds.map digitChar) = some (baseVal 8 ds % 2 ^ 32)) ∧
    (∀ ds : List Nat, ds ≠ [] → (∀ d ∈ ds, d < 10) → ds.headD 0 ≠ 0 →
      parseAddress (ds.map digitChar) = some (baseVal 10 ds % 2 ^ 32)) ∧
    parseAddress ['0', '1', '0'] = none := by
  refine ⟨?_, ?_, ?_, rfl⟩
  · intro ds hne h
    simp [parseAddress, pyIntBase0, pyIntCore, digitsVal_map (by norm_num) ds hne h]
    omega
  · intro ds hne h
    simp [parseAddress, pyIntBase0, pyIntCore, digitsVal_map (by norm_num) ds hne h]
    omega
  · intro ds hne h h0
    cases ds with
    | nil => exact absurd rfl hne
    | cons d0 ds =>
      have hd0 : d0 < 10 := h d0 (by simp)
      have hd0ne : d0 ≠ 0 := by simpa using h0
      have hc : digitChar d0 ≠ '-' ∧ digitChar d0 ≠ '+' ∧ digitChar d0 ≠ '0' := by
        interval_cases d0 <;> simp_all [digitChar]
      have hdv : digitsVal? 10 ((d0 :: ds).map digitChar)
          = some (baseVal 10 (d0 :: ds)) :=
        digitsVal_map (by norm_num) (d0 :: ds) (by simp) h
      simp only [List.map_cons] at hdv ⊢
      simp [parseAddress, pyIntBase0, pyIntCore, hc.1, hc.2.1, hc.2.2, hdv]
      omega

/-- Witness for the amended C8: `0x1c` parses as 28, `0o10` as 8, `42` as
42. -/
theorem address_literal_notations_witness :
    parseAddress ('0' :: 'x' :: [1, 12].map digitChar) = some (baseVal 16 [1, 12] % 2 ^ 32) ∧
    parseAddress ('0' :: 'o' :: [1, 0].map digitChar) = some (baseVal 8 [1, 0] % 2 ^ 32) ∧
    parseAddress ([4, 2].map digitChar) = some (baseVal 10 [4, 2] % 2 ^ 32) :=
  ⟨address_literal_notations.1 [1, 12] (by decide) (by decide),
   address_literal_notations.2.1 [1, 0] (by decide) (by decide),
   address_literal_notations.2.2.1 [4, 2] (by decide) (by decide) (by decide)⟩

/-! ## Parse-layout lemmas for hand-built containers -/

lemma parseElements_one (a sz : Nat) (ha : a < 2 ^ 32) (hsz : sz < 2 ^ 32)
    (d rest : List Nat) (hd : d.length = sz) :
    parseElements 1 (pack32 a ++ pack32 sz ++ (d ++ rest)) = some ([⟨a, sz, d⟩], rest) := by
  simp [parseElements, List.append_assoc, read32_pack32_lt ha, read32_pack32_lt hsz,
    Option.some_bind, List.take_left' hd, List.drop_left' hd]

lemma parseElements_one_trunc (a sz : Nat) (ha : a < 2 ^ 32) (hsz : sz < 2 ^ 32)
    (avail : List Nat) (hle : avail.length ≤ sz) :
    parseElements 1 (pack32 a ++ pack32 sz ++ avail) = some ([⟨a, sz, avail⟩], []) := by
  simp [parseElements, List.append_assoc, read32_pack32_lt ha, read32_pack32_lt hsz,
    Option.some_bind, List.take_of_length_le hle, List.drop_eq_nil_of_le hle]

lemma parseTargets_cons (k alt ecount : Nat) (nm tsl rest : List Nat)
    (imgs : List ParsedElement) (leftover : List Nat)
    (halt : alt < 256) (hts : tsl.length < 2 ^ 32) (hcnt : ecount < 2 ^ 32)
    (hpe : parseElements ecount tsl = some (imgs, leftover))
    (res : List ParsedTarget × List Nat)
    (hrec : parseTargets k rest = some res) :
    parseTargets (k + 1) ((targetHeader alt nm tsl.length ecount ++ tsl) ++ rest)
      = some (⟨alt, 1, cstring (packPadded 255 nm), tsl.length, ecount, imgs,
              leftover.length != 0⟩ :: res.1, res.2) := by
  simp [parseTargets, targetHeader, List.append_assoc, List.singleton_append,
    Option.some_bind, readByte_cons,
    readBytes_exact (show sigTarget.length = 6 from rfl),
    readBytes_exact (packPadded_length 255 nm),
    read32_pack32_lt (show (1 : Nat) < 2 ^ 32 by norm_num),
    read32_pack32_lt hts, read32_pack32_lt hcnt,
    List.take_left, List.drop_left, hpe, hrec, Nat.mod_eq_of_lt halt]

set_option maxHeartbeats 4000000 in
lemma parse_layout (tcount szf dev prod vend dfuv c : Nat) (body : List Nat)
    (pts : List ParsedTarget)
    (hpt : ∀ rest, parseTargets tcount (body ++ rest) = some (pts, rest))
    (hdev : dev < 2 ^ 16) (hprod : prod < 2 ^ 16) (hvend : vend < 2 ^ 16)
    (hdfu : dfuv < 2 ^ 16) (hc : c < 2 ^ 32) :
    (parse (sigDfuSe ++ [1] ++ pack32 szf ++ [tcount] ++ body
        ++ pack16 dev ++ pack16 prod ++ pack16 vend ++ pack16 dfuv
        ++ sigUFD ++ [16] ++ pack32 c)).map
        (fun p => (p.signature, p.version, p.size, p.targetCount, p.targets, p.suffix,
                   p.trailingFileBytes))
      = some (sigDfuSe, 1, szf % 2 ^ 32, tcount, pts,
              ⟨dev, prod, vend, dfuv, sigUFD, 16, c⟩, false) := by
  simp only [List.append_assoc, List.cons_append, List.singleton_append, List.nil_append]
  simp only [parse]
  simp only [readBytes_exact (show sigDfuSe.length = 5 from rfl), Option.some_bind]
  simp only [readByte_cons, Option.some_bind, read32_pack32, hpt,
    read16_pack16_lt hdev, read16_pack16_lt hprod, read16_pack16_lt hvend,
    read16_pack16_lt hdfu, readBytes_exact (show sigUFD.length = 3 from rfl),
    read32_pack32_nil, Option.map_some']
  simp [Nat.mod_eq_of_lt hc]
  omega

/-- Claim C7: in a container where a target's declared element sizes
consume one byte less than the target's declared `size` (one leftover byte
`x` remains in the target slice), `parse` reports the per-target
trailing-bytes diagnostic for that target, does not abort, and still
decodes the following target and the suffix correctly. -/
theorem trailing_target_bytes_reported
    (alt1 alt2 a1 a2 x szf dev prod vend dfuv c : Nat)
    (nm1 nm2 img1 img2 : List Nat)
    (halt1 : alt1 < 256) (halt2 : alt2 < 256)
    (ha1 : a1 < 2 ^ 32) (ha2 : a2 < 2 ^ 32)
    (hl1 : img1.length + 9 < 2 ^ 32) (hl2 : img2.length + 8 < 2 ^ 32)
    (hdev : dev < 2 ^ 16) (hprod : prod < 2 ^ 16) (hvend : vend < 2 ^ 16)
    (hdfu : dfuv < 2 ^ 16) (hc : c < 2 ^ 32) :
    ∃ p, parse (sigDfuSe ++ [1] ++ pack32 szf ++ [2]
        ++ ((targetHeader alt1 nm1 (9 + img1.length) 1
              ++ (pack32 a1 ++ pack32 img1.length ++ (img1 ++ [x])))
          ++ (targetHeader alt2 nm2 (8 + img2.length) 1
              ++ (pack32 a2 ++ pack32 img2.length ++ (img2 ++ []))))
        ++ pack16 dev ++ pack16 prod ++ pack16 vend ++ pack16 dfuv
        ++ sigUFD ++ [16] ++ pack32 c) = some p ∧
      p.targets.length = 2 ∧
      p.targets.map ParsedTarget.trailingBytes = [true, false] ∧
      p.targets.map (fun pt => pt.images.map (fun e => (e.address, e.size, e.image)))
        = [[(a1, img1.length, img1)], [(a2, img2.length, img2)]] ∧
      p.suffix = ⟨dev, prod, vend, dfuv, sigUFD, 16, c⟩ ∧
      p.trailingFileBytes = false := by
  have hts1 : (pack32 a1 ++ pack32 img1.length ++ (img1 ++ [x])).length = 9 + img1.length := by
    simp [List.length_append, pack32_length]
    omega
  have hts2 : (pack32 a2 ++ pack32 img2.length ++ (img2 ++ [])).length = 8 + img2.length := by
    simp [List.length_append, pack32_length]
    omega
  have hpe1 : parseElements 1 (pack32 a1 ++ pack32 img1.length ++ (img1 ++ [x]))
      = some ([⟨a1, img1.length, img1⟩], [x]) :=
    parseElements_one a1 img1.length ha1 (by omega) img1 [x] rfl
  have hpe2 : parseElements 1 (pack32 a2 ++ pack32 img2.length ++ (img2 ++ []))
      = some ([⟨a2, img2.length, img2⟩], []) :=
    parseElements_one a2 img2.length ha2 (by omega) img2 [] rfl
  have hpt : ∀ rest, parseTargets 2
      (((targetHeader alt1 nm1 (9 + img1.length) 1
          ++ (pack32 a1 ++ pack32 img1.length ++ (img1 ++ [x])))
        ++ (targetHeader alt2 nm2 (8 + img2.length) 1
          ++ (pack32 a2 ++ pack32 img2.length ++ (img2 ++ [])))) ++ rest)
      = some ([⟨alt1, 1, cstring (packPadded 255 nm1), 9 + img1.length, 1,
                [⟨a1, img1.length, img1⟩], true⟩,
               ⟨alt2, 1, cstring (packPadded 255 nm2), 8 + img2.length, 1,
                [⟨a2, img2.length, img2⟩], false⟩], rest) := by
    intro rest
    have hb2 : parseTargets 1 ((targetHeader alt2 nm2 (8 + img2.length) 1
        ++ (pack32 a2 ++ pack32 img2.length ++ (img2 ++ []))) ++ rest)
        = some ([⟨alt2, 1, cstring (packPadded 255 nm2), 8 + img2.length, 1,
                 [⟨a2, img2.length, img2⟩], false⟩], rest) := by
      have h := parseTargets_cons 0 alt2 1 nm2 (pack32 a2 ++ pack32 img2.length ++ (img2 ++ []))
        rest [⟨a2, img2.length, img2⟩] [] halt2 (by omega) (by norm_num) hpe2 ([], rest) rfl
      rw [hts2] at h
      simpa using h
    have h := parseTargets_cons 1 alt1 1 nm1 (pack32 a1 ++ pack32 img1.length ++ (img1 ++ [x]))
      ((targetHeader alt2 nm2 (8 + img2.length) 1
        ++ (pack32 a2 ++ pack32 img2.length ++ (img2 ++ []))) ++ rest)
      [⟨a1, img1.length, img1⟩] [x] halt1 (by omega) (by norm_num) hpe1 _ hb2
    rw [hts1] at h
    rw [show (((targetHeader alt1 nm1 (9 + img1.length) 1
          ++ (pack32 a1 ++ pack32 img1.length ++ (img1 ++ [x])))
        ++ (targetHeader alt2 nm2 (8 + img2.length) 1
          ++ (pack32 a2 ++ pack32 img2.length ++ (img2 ++ [])))) ++ rest : List Nat)
      = ((targetHeader alt1 nm1 (9 + img1.length) 1
          ++ (pack32 a1 ++ pack32 img1.length ++ (img1 ++ [x])))
        ++ ((targetHeader alt2 nm2 (8 + img2.length) 1
          ++ (pack32 a2 ++ pack32 img2.length ++ (img2 ++ []))) ++ rest)) from by
      simp [List.append_assoc]]
    simpa using h
  have hkey := parse_layout 2 szf dev prod vend dfuv c _ _ hpt hdev hprod hvend hdfu hc
  obtain ⟨p, hp⟩ : ∃ p, parse (sigDfuSe ++ [1] ++ pack32 szf ++ [2]
        ++ ((targetHeader alt1 nm1 (9 + img1.length) 1
              ++ (pack32 a1 ++ pack32 img1.length ++ (img1 ++ [x])))
          ++ (targetHeader alt2 nm2 (8 + img2.length) 1
              ++ (pack32 a2 ++ pack32 img2.length ++ (img2 ++ []))))
        ++ pack16 dev ++ pack16 prod ++ pack16 vend ++ pack16 dfuv
        ++ sigUFD ++ [16] ++ pack32 c) = some p := by
    cases hpp : parse (sigDfuSe ++ [1] ++ pack32 szf ++ [2]
        ++ ((targetHeader alt1 nm1 (9 + img1.length) 1
              ++ (pack32 a1 ++ pack32 img1.length ++ (img1 ++ [x])))
          ++ (targetHeader alt2 nm2 (8 + img2.length) 1
              ++ (pack32 a2 ++ pack32 img2.length ++ (img2 ++ []))))
        ++ pack16 dev ++ pack16 prod ++ pack16 vend ++ pack16 dfuv
        ++ sigUFD ++ [16] ++ pack32 c) with
    | none => rw [hpp] at hkey; simp at hkey
    | some q => exact ⟨q, rfl⟩
  rw [hp, Option.map_some'] at hkey
  have h7 := Option.some.inj hkey
  simp only [Prod.mk.injEq] at h7
  obtain ⟨-, -, -, -, hT, hS, hF⟩ := h7
  refine ⟨p, hp, ?_, ?_, ?_, hS, hF⟩
  · rw [hT]
    rfl
  · rw [hT]
    rfl
  · rw [hT]
    rfl

set_option maxRecDepth 8192 in
/-- Witness for C7: a concrete two-target container whose first target
slice carries one extra byte (99). -/
theorem trailing_target_bytes_reported_witness :
    ∃ p, parse (sigDfuSe ++ [1] ++ pack32 0 ++ [2]
        ++ ((targetHeader 3 [65] (9 + [7, 8].length) 1
              ++ (pack32 4096 ++ pack32 [7, 8].length ++ ([7, 8] ++ [99])))
          ++ (targetHeader 5 [66] (8 + [9].length) 1
              ++ (pack32 8192 ++ pack32 [9].length ++ ([9] ++ []))))
        ++ pack16 1 ++ pack16 2 ++ pack16 3 ++ pack16 4
        ++ sigUFD ++ [16] ++ pack32 12345) = some p ∧
      p.targets.length = 2 ∧
      p.targets.map ParsedTarget.trailingBytes = [true, false] ∧
      p.targets.map (fun pt => pt.images.map (fun e => (e.address, e.size, e.image)))
        = [[(4096, [7, 8].length, [7, 8])], [(8192, [9].length, [9])]] ∧
      p.suffix = ⟨1, 2, 3, 4, sigUFD, 16, 12345⟩ ∧
      p.trailingFileBytes = false :=
  trailing_target_bytes_reported 3 5 4096 8192 99 0 1 2 3 4 12345 [65] [66] [7, 8] [9]
    (by decide) (by decide) (by decide) (by decide) (by decide) (by decide)
    (by decide) (by decide) (by decide) (by decide) (by decide)

set_option maxRecDepth 8192 in
/-- Counterexample for C9: a container whose only target declares TWO
elements, the first with size 5 when only 4 bytes remain in the slice.
The claim says the parser raises no error and decodes the remaining
element from an empty slice; in fact `struct.unpack("<2I", b"")` raises
struct.error, so `parse` aborts (`none`). -/
theorem oversized_element_aborts_parse :
    parse (sigDfuSe ++ [1] ++ pack32 0 ++ [1]
      ++ (targetHeader 0 [] 12 2 ++ (pack32 0 ++ pack32 5 ++ [1, 2, 3, 4]))
      ++ pack16 0 ++ pack16 0 ++ pack16 0 ++ pack16 0
      ++ sigUFD ++ [16] ++ pack32 0) = none := by
  rfl

/-- Amended claim C9: when the oversized element is the *last* declared
element of its target, `parse` indeed raises no error and reports no
diagnostic — the element's data is silently truncated to the bytes
available (its `size` field keeps the oversized value), and no
trailing-bytes report is produced for that target; but when further
declared elements remain after the oversized one, `parse` aborts with a
struct.error (see the counterexample). -/
theorem oversized_last_element_truncates
    (alt a s szf dev prod vend dfuv c : Nat) (nm avail : List Nat)
    (halt : alt < 256) (ha : a < 2 ^ 32) (hs : s < 2 ^ 32)
    (hover : avail.length < s) (hlen : avail.length + 8 < 2 ^ 32)
    (hdev : dev < 2 ^ 16) (hprod : prod < 2 ^ 16) (hvend : vend < 2 ^ 16)
    (hdfu : dfuv < 2 ^ 16) (hc : c < 2 ^ 32) :
    ∃ p, parse (sigDfuSe ++ [1] ++ pack32 szf ++ [1]
        ++ (targetHeader alt nm (8 + avail.length) 1 ++ (pack32 a ++ pack32 s ++ avail))
        ++ pack16 dev ++ pack16 prod ++ pack16 vend ++ pack16 dfuv
        ++ sigUFD ++ [16] ++ pack32 c) = some p ∧
      p.targets.map (fun pt =>
          (pt.images.map (fun e => (e.address, e.size, e.image)), pt.trailingBytes))
        = [([(a, s, avail)], false)] ∧
      p.trailingFileBytes = false := by
  have hts : (pack32 a ++ pack32 s ++ avail).length = 8 + avail.length := by
    simp [List.length_append, pack32_length]
    omega
  have hpe : parseElements 1 (pack32 a ++ pack32 s ++ avail)
      = some ([⟨a, s, avail⟩], []) :=
    parseElements_one_trunc a s ha hs avail (le_of_lt hover)
  have hpt : ∀ rest, parseTargets 1
      ((targetHeader alt nm (8 + avail.length) 1 ++ (pack32 a ++ pack32 s ++ avail)) ++ rest)
      = some ([⟨alt, 1, cstring (packPadded 255 nm), 8 + avail.length, 1,
               [⟨a, s, avail⟩], false⟩], rest) := by
    intro rest
    have h := parseTargets_cons 0 alt 1 nm (pack32 a ++ pack32 s ++ avail) rest
      [⟨a, s, avail⟩] [] halt (by omega) (by norm_num) hpe ([], rest) rfl
    rw [hts] at h
    simpa using h
  have hkey := parse_layout 1 szf dev prod vend dfuv c _ _ hpt hdev hprod hvend hdfu hc
  obtain ⟨p, hp⟩ : ∃ p, parse (sigDfuSe ++ [1] ++ pack32 szf ++ [1]
        ++ (targetHeader alt nm (8 + avail.length) 1 ++ (pack32 a ++ pack32 s ++ avail))
        ++ pack16 dev ++ pack16 prod ++ pack16 vend ++ pack16 dfuv
        ++ sigUFD ++ [16] ++ pack32 c) = some p := by
    cases hpp : parse (sigDfuSe ++ [1] ++ pack32 szf ++ [1]
        ++ (targetHeader alt nm (8 + avail.length) 1 ++ (pack32 a ++ pack32 s ++ avail))
        ++ pack16 dev ++ pack16 prod ++ pack16 vend ++ pack16 dfuv
        ++ sigUFD ++ [16] ++ pack32 c) with
    | none => rw [hpp] at hkey; simp at hkey
    | some q => exact ⟨q, rfl⟩
  rw [hp, Option.map_some'] at hkey
  have h7 := Option.some.inj hkey
  simp only [Prod.mk.injEq] at h7
  obtain ⟨-, -, -, -, hT, -, hF⟩ := h7
  refine ⟨p, hp, ?_, hF⟩
  rw [hT]
  rfl

set_option maxRecDepth 8192 in
/-- Witness for the amended C9: a single element declaring size 5 over a
4-byte slice; its data decodes as the 4 available bytes, no diagnostic. -/
theorem oversized_last_element_truncates_witness :
    ∃ p, parse (sigDfuSe ++ [1] ++ pack32 0 ++ [1]
        ++ (targetHeader 0 [] (8 + [1, 2, 3, 4].length) 1
            ++ (pack32 0 ++ pack32 5 ++ [1, 2, 3, 4]))
        ++ pack16 0 ++ pack16 0 ++ pack16 0 ++ pack16 0
        ++ sigUFD ++ [16] ++ pack32 0) = some p ∧
      p.targets.map (fun pt =>
          (pt.images.map (fun e => (e.address, e.size, e.image)), pt.trailingBytes))
        = [([(0, 5, [1, 2, 3, 4])], false)] ∧
      p.trailingFileBytes = false :=
  oversized_last_element_truncates 0 0 5 0 0 0 0 0 0 [] [1, 2, 3, 4]
    (by decide) (by decide) (by decide) (by decide) (by decide)
    (by decide) (by decide) (by decide) (by decide) (by decide)

/-! ## S-record ingestion (the `options.s19files` branch)

Each line is `rstrip`ped, classified by its two-character type, and folded
into a running `(address, data)` segment: the first record (while
`address == 0`) seeds it, a contiguous data record extends it, and any
other parsed `(curaddress, curdata)` closes the running segment into
`target` and reseeds.  Lines that are not S0/S1/S2/S3 parse as
`(0, b"")` and therefore land in the discontinuity branch.  `int(..., 16)`
`ValueError` exits and `binascii` errors crash: both are `none`. -/

/-- Python `str.rstrip()` (whitespace only). -/
def rstrip (l : List Char) : List Char := (l.reverse.dropWhile Char.isWhitespace).reverse

/-- Python slice `l[a:b]` for nonnegative bounds. -/
def pySlice (a b : Nat) (l : List Char) : List Char := (l.take b).drop a

/-- Model of `binascii.unhexlify` / `a2b_hex`: pairs of hex digits; errors on an odd
length or a non-hex digit. -/
def unhex : List Char → Option (List Nat)
  | [] => some []
  | c1 :: c2 :: rest =>
    match digitVal? 16 c1, digitVal? 16 c2 with
    | some v1, some v2 => (unhex rest).map (fun bs => (16 * v1 + v2) :: bs)
    | _, _ => none
  | _ => none

/-- Classify one stripped line: returns (name override, curaddress,
curdata). -/
def s19Line (line : List Char) : Option (Option (List Nat) × Nat × List Nat) :=
  if line.take 2 = ['S', '0'] then
    (unhex (pySlice 8 (line.length - 2) line)).map (fun nm => (some nm, 0, []))
  else if line.take 2 = ['S', '3'] then
    match digitsVal? 16 (pySlice 4 12 line) with
    | none => none
    | some addr =>
      (unhex (pySlice 12 (line.length - 2) line)).map (fun d => (none, addr % 2 ^ 32, d))
  else if line.take 2 = ['S', '2'] then
    match digitsVal? 16 (pySlice 4 10 line) with
    | none => none
    | some addr =>
      (unhex (pySlice 10 (line.length - 2) line)).map (fun d => (none, addr % 2 ^ 32, d))
  else if line.take 2 = ['S', '1'] then
    match digitsVal? 16 (pySlice 4 8 line) with
    | none => none
    | some addr =>
      (unhex (pySlice 8 (line.length - 2) line)).map (fun d => (none, addr % 2 ^ 32, d))
  else some (none, 0, [])

/-- The loop state: running segment (`address`, `data`), emitted segments
(`target`), container name. -/
structure S19State where
  address : Nat
  data : List Nat
  target : List Image
  name : List Nat
deriving DecidableEq

/-- One iteration of the S19 line loop. -/
def s19Step (dAlt : Nat) (st : S19State) (line : List Char) : Option S19State :=
  match s19Line (rstrip line) with
  | none => none
  | some (nm, curaddress, curdata) =>
    let name2 := nm.getD st.name
    if st.address = 0 then
      some { st with name := name2, address := curaddress, data := curdata }
    else if st.address + st.data.length ≠ curaddress then
      some { st with
              name := name2
              target := st.target ++ [⟨st.address, dAlt, st.data⟩]
              address := curaddress
              data := curdata }
    else
      some { st with name := name2, data := st.data ++ curdata }

def s19Run (dAlt : Nat) : S19State → List (List Char) → Option S19State
  | st, [] => some st
  | st, l :: ls =>
    match s19Step dAlt st l with
    | none => none
    | some st2 => s19Run dAlt st2 ls

/-- The whole S19 branch from the initial state; the resulting `target`
list (with `name`) is what gets passed to `build`. -/
def s19Build (dAlt : Nat) (lines : List (List Char)) : Option S19State :=
  s19Run dAlt ⟨0, [], [], defaultName⟩ lines

lemma s19Run_append (dAlt : Nat) (ls1 ls2 : List (List Char)) :
    ∀ st : S19State, s19Run dAlt st (ls1 ++ ls2)
      = (s19Run dAlt st ls1).bind (fun st2 => s19Run dAlt st2 ls2) := by
  induction ls1 with
  | nil => intro st; rfl
  | cons l ls ih =>
    intro st
    simp only [List.cons_append, s19Run]
    cases s19Step dAlt st l with
    | none => rfl
    | some st2 => exact ih st2

/-- Counterexample for C5: an S-record input consisting of a single data
record (4 bytes at 0x1000) and nothing else.  After the last line the
running segment is `(0x1000, [1,2,3,4])`, yet the emitted segment list
(`target`) is empty — the loop has no end-of-input flush, so the final
running segment is NOT emitted. -/
theorem s19_single_record_drops_final_segment :
    (s19Build 0 ["S10710000102030400".toList]).map S19State.target = some [] ∧
    (s19Build 0 ["S10710000102030400".toList]).map S19State.address = some 4096 ∧
    (s19Build 0 ["S10710000102030400".toList]).map S19State.data = some [1, 2, 3, 4] := by
  exact ⟨rfl, rfl, rfl⟩

/-- Amended claim C5: the final running segment is emitted exactly when a
further line follows whose parsed record address is 0 — which is every
line that is not an S1/S2/S3 data record (an S0 header record, a standard
S7/S8/S9 terminator record, or a blank line all parse as
`(curaddress, curdata) = (0, ...)`), and also a data record targeting
address 0.  Since the running address is nonzero, such a line lands in
the discontinuity branch, which appends the running segment to the
output.  An input whose last line is a data record contiguous with the
running segment silently drops that final segment (see the
counterexample): the loop has no end-of-input flush. -/
theorem s19_final_segment_flushed_by_zero_address_line (dAlt : Nat)
    (lines : List (List Char)) (t : List Char) (st : S19State)
    (nm : Option (List Nat)) (cd : List Nat)
    (hrun : s19Build dAlt lines = some st)
    (haddr : st.address ≠ 0)
    (hline : s19Line (rstrip t) = some (nm, 0, cd)) :
    ∃ st2, s19Build dAlt (lines ++ [t]) = some st2 ∧
      st2.target = st.target ++ [⟨st.address, dAlt, st.data⟩] := by
  have hstep : s19Step dAlt st t
      = some { st with
                name := nm.getD st.name
                target := st.target ++ [⟨st.address, dAlt, st.data⟩]
                address := 0
                data := cd } := by
    unfold s19Step
    rw [hline]
    simp only []
    rw [if_neg haddr, if_pos (by omega)]
  refine ⟨{ st with
            name := nm.getD st.name
            target := st.target ++ [⟨st.address, dAlt, st.data⟩]
            address := 0
            data := cd }, ?_, rfl⟩
  unfold s19Build at hrun ⊢
  rw [s19Run_append, hrun, Option.some_bind]
  simp only [s19Run, hstep]

/-- Witness for the amended C5: one data record followed by the standard
S9 terminator line, and the same record followed by an S0 header line; in
both cases the trailing line parses with record address 0 and the segment
`(0x1000, [1,2,3,4])` is emitted. -/
theorem s19_final_segment_flushed_witness :
    (∃ st2, s19Build 0 (["S10710000102030400".toList] ++ ["S9030000FC".toList]) = some st2 ∧
      st2.target = [⟨4096, 0, [1, 2, 3, 4]⟩]) ∧
    (∃ st2, s19Build 0 (["S10710000102030400".toList] ++ ["S0030000FC".toList]) = some st2 ∧
      st2.target = [⟨4096, 0, [1, 2, 3, 4]⟩]) :=
  ⟨s19_final_segment_flushed_by_zero_address_line 0 ["S10710000102030400".toList]
      "S9030000FC".toList ⟨4096, [1, 2, 3, 4], [], defaultName⟩ none []
      (by decide) (by decide) (by decide),
   s19_final_segment_flushed_by_zero_address_line 0 ["S10710000102030400".toList]
      "S0030000FC".toList ⟨4096, [1, 2, 3, 4], [], defaultName⟩ (some []) []
      (by decide) (by decide) (by decide)⟩

/-- Counterexample for C6: the three data records (4 bytes at 0x1000,
4 at 0x1004, 4 at 0x2000) alone — with no terminator line — produce only
ONE segment, `(0x1000, 8 bytes)`; the final `(0x2000, 4 bytes)` run is
dropped, not two segments as claimed. -/
theorem s19_three_records_one_segment :
    (s19Build 0 ["S10710000102030400".toList, "S10710040506070800".toList,
                 "S10720000A0B0C0D00".toList]).map S19State.target
      = some [⟨4096, 0, [1, 2, 3, 4, 5, 6, 7, 8]⟩] ∧
    ([(⟨4096, 0, [1, 2, 3, 4, 5, 6, 7, 8]⟩ : Image)]
      ≠ [⟨4096, 0, [1, 2, 3, 4, 5, 6, 7, 8]⟩, ⟨8192, 0, [10, 11, 12, 13]⟩]) := by
  exact ⟨rfl, by decide⟩

/-- Amended claim C6: with the standard S9 terminator line appended, the
same three data records produce exactly the two claimed segments:
`(0x1000, [1,2,3,4,5,6,7,8])` and `(0x2000, [10,11,12,13])`. -/
theorem s19_three_records_with_terminator :
    (s19Build 0 ["S10710000102030400".toList, "S10710040506070800".toList,
                 "S10720000A0B0C0D00".toList, "S9030000FC".toList]).map S19State.target
      = some [⟨4096, 0, [1, 2, 3, 4, 5, 6, 7, 8]⟩, ⟨8192, 0, [10, 11, 12, 13]⟩] := by
  rfl
